import Mathlib

/-!
Verification of the jwplayer `Api` facade (`src/js/api/api.js`) against its
natural-language specification.

The development shallowly embeds the parts of the facade that the claims
are about:

* `callInternal` — the name-based call forwarder (api.js lines 154-159);
* `triggerNormalize` / `apiTrigger` — payload normalization and the
  debug-flag dispatch choice of `Api#trigger` (lines 290-302), over an
  explicit object heap so that (non-)mutation of caller-owned objects is
  observable;
* `setupRun` / `removeRun` — action-trace semantics of `Api#setup`
  (lines 168-188), `Api#remove` (lines 196-208), `resetPlayer`
  (lines 43-50) and `setupController` (lines 23-36);
* `pstep` / `runProc` — the process-wide instance counter
  (`instancesCreated`, line 16/77) and registry removal loop
  (`removePlayer`, lines 57-64);
* `addPlugin` / `getPlugin` — per-handle plugin wiring (lines 980-998),
  over an event-bus model; the bus itself (`utils/backbone.events`) is not
  part of the shown source and is modelled from the specification;
* `api_isBeforeComplete` / `api_isBeforePlay` — the result-discarding
  forwarders (lines 962-973).
-/

set_option maxHeartbeats 1000000

namespace JW

/-- JavaScript values, as far as the facade inspects them: primitives plus
references into an explicit object heap. -/
inductive JsValue where
  | undefined
  | null
  | num (n : Int)
  | str (s : String)
  | boolean (b : Bool)
  | objRef (oid : Nat)
deriving DecidableEq, Repr

/-- JavaScript property assignment `obj[k] = v` on an insertion-ordered
field list: an existing key keeps its position and gets the new value, a
new key is appended. -/
def setProp {α : Type} : List (String × α) → String → α → List (String × α)
  | [], k, v => [(k, v)]
  | (k₁, v₁) :: rest, k, v =>
    if k₁ = k then (k, v) :: rest else (k₁, v₁) :: setProp rest k v

/-- JavaScript property read `obj[k]` on an insertion-ordered field list. -/
def lookupProp {α : Type} (fields : List (String × α)) (k : String) : Option α :=
  match fields.find? (fun p => p.1 == k) with
  | some p => some p.2
  | none => none

/-- The controller collaborator as the facade sees it: an identity (used to
model the `this`-context of method invocation) and a string-keyed method
table; a method receives the invocation context and the argument list. -/
structure Controller where
  ctxId : Nat
  methods : String → Option (Nat → List JsValue → JsValue)

/-- Embedding of `Api#callInternal` (api.js lines 154-159):
`if (_controller[name]) return _controller[name].apply(_controller, args);
return null;` — resolve `name` against the current controller, invoke with
the controller as context when present, otherwise yield `null`. -/
def callInternal (c : Controller) (name : String) (args : List JsValue) : JsValue :=
  match c.methods name with
  | some f => f c.ctxId args
  | none => JsValue.null

/-- Result of running one public forwarding method: the forwarded calls it
made on the controller, and the method's JavaScript return value. -/
structure MethodResult where
  calls : List (String × List JsValue)
  ret : JsValue

/-- JavaScript expression-statement semantics: the expression's value is
discarded; a function body that runs off its end completes with
`undefined`. -/
def exprStmt (_v : JsValue) : JsValue := JsValue.undefined

/-- Embedding of `Api#isBeforeComplete` (api.js lines 962-964): the body is
the bare statement `this.callInternal('isBeforeComplete');` with no
`return`, so the method completes with `undefined`. -/
def api_isBeforeComplete (c : Controller) : MethodResult :=
  { calls := [("isBeforeComplete", [])],
    ret := exprStmt (callInternal c "isBeforeComplete" []) }

/-- Embedding of `Api#isBeforePlay` (api.js lines 971-973): the body is the
bare statement `this.callInternal('isBeforePlay');` with no `return`. -/
def api_isBeforePlay (c : Controller) : MethodResult :=
  { calls := [("isBeforePlay", [])],
    ret := exprStmt (callInternal c "isBeforePlay" []) }

/-- Embedding of `Api#getMute` (api.js lines 482-484), for contrast: this
forwarder does `return this.callInternal('getMute');`. -/
def api_getMute (c : Controller) : MethodResult :=
  { calls := [("getMute", [])],
    ret := callInternal c "getMute" [] }

/-! ### Object heap and `Api#trigger` (api.js lines 290-302) -/

/-- A heap of JavaScript objects: association of object ids to field lists,
plus the next fresh id. -/
structure Heap where
  objs : List (Nat × List (String × JsValue))
  next : Nat
deriving DecidableEq, Repr

/-- Read an object's fields; a dangling reference reads as no fields. -/
def Heap.lookup (h : Heap) (oid : Nat) : List (String × JsValue) :=
  match h.objs.find? (fun p => p.1 == oid) with
  | some p => p.2
  | none => []

/-- Allocate a fresh object with the given fields; returns the new heap and
the new object's id. -/
def Heap.alloc (h : Heap) (fields : List (String × JsValue)) : Heap × Nat :=
  ({ objs := h.objs ++ [(h.next, fields)], next := h.next + 1 }, h.next)

/-- Mutating property assignment `heapObj[k] = v` on the object `oid`. -/
def Heap.setField (h : Heap) (oid : Nat) (k : String) (v : JsValue) : Heap :=
  { objs := h.objs.map (fun p => if p.1 == oid then (p.1, setProp p.2 k v) else p),
    next := h.next }

/-- Every allocated object id is below the fresh-id counter. -/
def HeapWF (h : Heap) : Prop :=
  ∀ p ∈ h.objs, p.1 < h.next

/-- underscore's `_.isObject` restricted to the values the facade passes to
`trigger`: true exactly for object references. -/
def isObjectValue : JsValue → Bool
  | JsValue.objRef _ => true
  | _ => false

/-- Embedding of the payload-normalization prefix of `Api#trigger`
(api.js lines 290-296): `if (_.isObject(args)) args = _.extend({}, args);
else args = {}; args.type = name;`. `_.extend(\x7b\x7d, args)` allocates a
fresh object holding a shallow copy of the caller's fields; the `type`
assignment then mutates only that fresh object. Returns the heap after
normalization and the id of the delivered payload object. -/
def triggerNormalize (h : Heap) (name : String) (args : JsValue) : Heap × Nat :=
  match args with
  | JsValue.objRef oid =>
    let allocated := h.alloc (h.lookup oid)
    (Heap.setField allocated.1 allocated.2 "type" (JsValue.str name), allocated.2)
  | _ =>
    let allocated := h.alloc []
    (Heap.setField allocated.1 allocated.2 "type" (JsValue.str name), allocated.2)

/-- Truthiness of `window.jwplayer` and of its `debug` property: `none`
models an absent global, `some g` a present one with `g.debug` the
truthiness of the flag. -/
structure JWGlobal where
  debug : Bool
deriving DecidableEq, Repr

/-- The two dispatch variants of the event bus. -/
inductive TriggerVariant where
  | plain
  | safe
deriving DecidableEq, Repr

/-- Embedding of the dispatch choice of `Api#trigger` (api.js lines
297-301): `const jwplayer = window.jwplayer; if (jwplayer && jwplayer.debug)
return Events.trigger...; return Events.triggerSafe...`. -/
def selectTriggerVariant (windowJwplayer : Option JWGlobal) : TriggerVariant :=
  match windowJwplayer with
  | some jwplayer =>
    if jwplayer.debug then TriggerVariant.plain else TriggerVariant.safe
  | none => TriggerVariant.safe

/-- Embedding of the whole of `Api#trigger` (api.js lines 290-302):
normalize the payload, then dispatch through `Events.trigger` or
`Events.triggerSafe` according to the debug flag. The result records the
heap after normalization, the delivered payload object, and the variant
dispatched through. -/
def apiTrigger (h : Heap) (windowJwplayer : Option JWGlobal) (name : String)
    (args : JsValue) : Heap × Nat × TriggerVariant :=
  let normalized := triggerNormalize h name args
  (normalized.1, normalized.2, selectTriggerVariant windowJwplayer)

lemma find_map_setField (l : List (Nat × List (String × JsValue))) (target oid : Nat)
    (k : String) (v : JsValue) :
    (l.map (fun p => if p.1 == target then (p.1, setProp p.2 k v) else p)).find?
        (fun p => p.1 == oid)
      = (l.find? (fun p => p.1 == oid)).map
          (fun p => if p.1 == target then (p.1, setProp p.2 k v) else p) := by
  rw [List.find?_map]
  have hpred : ((fun (p : Nat × List (String × JsValue)) => p.1 == oid)
        ∘ (fun p => if p.1 == target then (p.1, setProp p.2 k v) else p))
      = (fun (p : Nat × List (String × JsValue)) => p.1 == oid) := by
    funext p
    by_cases hp : p.1 = target <;> simp [Function.comp, hp]
  rw [hpred]

/-- A fresh allocation is invisible to reads of other ids. -/
lemma lookup_alloc_other (h : Heap) (fields : List (String × JsValue)) (oid : Nat)
    (hne : oid ≠ h.next) : (h.alloc fields).1.lookup oid = h.lookup oid := by
  simp only [Heap.alloc, Heap.lookup, List.find?_append]
  have hsingle : ([(h.next, fields)].find? (fun p => p.1 == oid)) = none := by
    rw [List.find?_eq_none]
    intro p hp
    simp only [List.mem_singleton] at hp
    simp [hp, Ne.symm hne]
  rw [hsingle, Option.or_none]

/-- Reading the object a fresh allocation created gives its fields. -/
lemma lookup_alloc_self (h : Heap) (fields : List (String × JsValue))
    (hwf : HeapWF h) : (h.alloc fields).1.lookup h.next = fields := by
  simp only [Heap.alloc, Heap.lookup, List.find?_append]
  have hnone : h.objs.find? (fun p => p.1 == h.next) = none := by
    rw [List.find?_eq_none]
    intro p hp
    simp only [beq_iff_eq]
    exact Nat.ne_of_lt (hwf p hp)
  simp [hnone]

/-- `setField` leaves every other object's fields alone. -/
lemma lookup_setField_other (h : Heap) (oid target : Nat) (k : String) (v : JsValue)
    (hne : oid ≠ target) : (h.setField target k v).lookup oid = h.lookup oid := by
  simp only [Heap.setField, Heap.lookup, find_map_setField]
  cases hfind : h.objs.find? (fun p => p.1 == oid) with
  | none => simp
  | some q =>
    have hq : q.1 = oid := by simpa using List.find?_some hfind
    simp [hq, hne]

/-- `setField` on a present object updates exactly its fields. -/
lemma lookup_setField_self (h : Heap) (target : Nat) (k : String) (v : JsValue)
    (q : Nat × List (String × JsValue))
    (hfind : h.objs.find? (fun p => p.1 == target) = some q) :
    (h.setField target k v).lookup target = setProp q.2 k v := by
  have hq : q.1 = target := by simpa using List.find?_some hfind
  simp only [Heap.setField, Heap.lookup, find_map_setField]
  rw [hfind]
  simp [hq]

/-- The payload object the normalization allocates holds the copied fields
with `type` set. -/
lemma triggerNormalize_fresh_lookup (h : Heap) (name : String)
    (fields : List (String × JsValue)) (hwf : HeapWF h) :
    ((h.alloc fields).1.setField (h.alloc fields).2 "type" (JsValue.str name)).lookup
        (h.alloc fields).2
      = setProp fields "type" (JsValue.str name) := by
  have hfind : (h.alloc fields).1.objs.find? (fun p => p.1 == (h.alloc fields).2)
      = some ((h.alloc fields).2, fields) := by
    simp only [Heap.alloc, List.find?_append]
    have hnone : h.objs.find? (fun p => p.1 == h.next) = none := by
      rw [List.find?_eq_none]
      intro p hp
      simp only [beq_iff_eq]
      exact Nat.ne_of_lt (hwf p hp)
    simp [hnone]
  exact lookup_setField_self _ _ _ _ _ hfind

/-- C4: `trigger(name, payload)` delivers a normalized payload: a fresh
empty record when the caller's payload is not an object, otherwise a
shallow copy of the caller's object; in both cases the `type` field is set
to the event name on the normalized payload, and the caller's own object is
never mutated (the delivered object is a different object). -/
theorem C4_trigger_payload_normalization (h : Heap) (name : String) (args : JsValue)
    (hwf : HeapWF h)
    (hargs : ∀ oid, args = JsValue.objRef oid → oid < h.next) :
    (∀ oid, args = JsValue.objRef oid →
      (triggerNormalize h name args).1.lookup (triggerNormalize h name args).2
          = setProp (h.lookup oid) "type" (JsValue.str name)
        ∧ (triggerNormalize h name args).1.lookup oid = h.lookup oid
        ∧ (triggerNormalize h name args).2 ≠ oid)
    ∧ (isObjectValue args = false →
      (triggerNormalize h name args).1.lookup (triggerNormalize h name args).2
        = [("type", JsValue.str name)]) := by
  constructor
  · intro oid hoid
    subst hoid
    have hlt : oid < h.next := hargs oid rfl
    have hne : oid ≠ h.next := Nat.ne_of_lt hlt
    refine ⟨?_, ?_, ?_⟩
    · exact triggerNormalize_fresh_lookup h name (h.lookup oid) hwf
    · show ((h.alloc (h.lookup oid)).1.setField h.next "type"
          (JsValue.str name)).lookup oid = h.lookup oid
      rw [lookup_setField_other _ _ _ _ _ hne]
      exact lookup_alloc_other h (h.lookup oid) oid hne
    · exact Ne.symm hne
  · intro hobj
    have key : ((h.alloc []).1.setField (h.alloc []).2 "type" (JsValue.str name)).lookup
        (h.alloc []).2 = [("type", JsValue.str name)] :=
      triggerNormalize_fresh_lookup h name [] hwf
    cases args with
    | objRef oid => simp [isObjectValue] at hobj
    | undefined => exact key
    | null => exact key
    | num n => exact key
    | str s => exact key
    | boolean b => exact key

/-- C4 witness: `trigger("x", objRef to obj with just a:1)` delivers a
payload whose fields are exactly a:1, type:"x", while the caller's object
still holds just a:1 afterwards. -/
theorem C4_trigger_payload_normalization_witness :
    (triggerNormalize { objs := [(0, [("a", JsValue.num 1)])], next := 1 } "x"
        (JsValue.objRef 0)).1.lookup
      (triggerNormalize { objs := [(0, [("a", JsValue.num 1)])], next := 1 } "x"
        (JsValue.objRef 0)).2
      = [("a", JsValue.num 1), ("type", JsValue.str "x")]
    ∧ (triggerNormalize { objs := [(0, [("a", JsValue.num 1)])], next := 1 } "x"
        (JsValue.objRef 0)).1.lookup 0
      = [("a", JsValue.num 1)] := by
  have h := (C4_trigger_payload_normalization
    { objs := [(0, [("a", JsValue.num 1)])], next := 1 } "x" (JsValue.objRef 0)
    (by intro p hp; simp at hp; simp [hp])
    (by intro oid hoid; injection hoid with h2; subst h2; decide)).1 0 rfl
  refine ⟨?_, h.2.1⟩
  rw [h.1]
  rfl

/-- C5: the public `trigger` entry point dispatches through the
exception-propagating `Events.trigger` exactly when `window.jwplayer` is
present with a truthy `debug` flag, and through the fault-isolated
`Events.triggerSafe` otherwise (flag falsy or global absent). -/
theorem C5_trigger_debug_dispatch (h : Heap) (windowJwplayer : Option JWGlobal)
    (name : String) (args : JsValue) :
    ((apiTrigger h windowJwplayer name args).2.2 = TriggerVariant.plain
      ↔ ∃ g, windowJwplayer = some g ∧ g.debug = true)
    ∧ ((apiTrigger h windowJwplayer name args).2.2 = TriggerVariant.safe
      ↔ ¬ ∃ g, windowJwplayer = some g ∧ g.debug = true) := by
  cases windowJwplayer with
  | none => simp [apiTrigger, selectTriggerVariant]
  | some g =>
    cases hdbg : g.debug with
    | true => simp [apiTrigger, selectTriggerVariant, hdbg]
    | false => simp [apiTrigger, selectTriggerVariant, hdbg]

/-- C5 witness: with the debug flag set, `trigger` dispatches unsafely; with
it unset or the global absent, it dispatches safely. -/
theorem C5_trigger_debug_dispatch_witness :
    (apiTrigger { objs := [], next := 0 } (some { debug := true }) "x"
        JsValue.null).2.2 = TriggerVariant.plain
    ∧ (apiTrigger { objs := [], next := 0 } (some { debug := false }) "x"
        JsValue.null).2.2 = TriggerVariant.safe
    ∧ (apiTrigger { objs := [], next := 0 } none "x"
        JsValue.null).2.2 = TriggerVariant.safe := by
  refine ⟨?_, ?_, ?_⟩
  · exact (C5_trigger_debug_dispatch { objs := [], next := 0 }
      (some { debug := true }) "x" JsValue.null).1.mpr ⟨{ debug := true }, rfl, rfl⟩
  · exact (C5_trigger_debug_dispatch { objs := [], next := 0 }
      (some { debug := false }) "x" JsValue.null).2.mpr (by simp)
  · exact (C5_trigger_debug_dispatch { objs := [], next := 0 }
      none "x" JsValue.null).2.mpr (by simp)

/-- A sample controller used to instantiate theorems with hypotheses. -/
def demoController : Controller :=
  { ctxId := 7,
    methods := fun n =>
      if n = "getMute" then some (fun ctx _ => JsValue.num (Int.ofNat ctx))
      else if n = "isBeforeComplete" then some (fun _ _ => JsValue.boolean true)
      else none }

/-- C3: `callInternal(name, ...args)` resolves `name` against the attached
controller: a present operation is invoked with the given arguments and the
controller as invocation context and its result returned; an absent
operation yields `null` (the function is total, so no error is raised). -/
theorem C3_callInternal_resolution (c : Controller) (name : String) (args : List JsValue) :
    (∀ f, c.methods name = some f → callInternal c name args = f c.ctxId args)
    ∧ (c.methods name = none → callInternal c name args = JsValue.null) := by
  constructor
  · intro f hf
    simp [callInternal, hf]
  · intro hf
    simp [callInternal, hf]

/-- C3 witness: on a concrete controller, a present method `getMute` is
invoked with the controller's own context, and the absent method
`nonexistentOp` yields `null`. -/
theorem C3_callInternal_resolution_witness :
    callInternal demoController "getMute" [] = JsValue.num 7
    ∧ callInternal demoController "nonexistentOp" [] = JsValue.null := by
  constructor
  · have h := (C3_callInternal_resolution demoController "getMute" []).1
      (fun ctx _ => JsValue.num (Int.ofNat ctx)) (by simp [demoController])
    simpa using h
  · have h := (C3_callInternal_resolution demoController "nonexistentOp" []).2
      (by simp [demoController])
    exact h

/-- C10: `isBeforeComplete()` and `isBeforePlay()` forward to the
controller through `callInternal` but discard the controller's result and
return `undefined`, whatever the controller would have answered; a normal
forwarder such as `getMute()` returns the controller's result instead. -/
theorem C10_isBefore_accessors_return_undefined (c : Controller) :
    (api_isBeforeComplete c).ret = JsValue.undefined
    ∧ (api_isBeforeComplete c).calls = [("isBeforeComplete", [])]
    ∧ (api_isBeforePlay c).ret = JsValue.undefined
    ∧ (api_isBeforePlay c).calls = [("isBeforePlay", [])]
    ∧ (api_getMute c).ret = callInternal c "getMute" [] := by
  refine ⟨rfl, rfl, rfl, rfl, rfl⟩

/-! ### Process-wide instance counter and registry
(api.js lines 16, 57-64, 74-77, 196-208) -/

/-- One process-level operation on the page: constructing a handle or
calling `remove()` on the handle with the given `uniqueId`. -/
inductive POp where
  | construct
  | removeOp (uid : Nat)
deriving DecidableEq, Repr

def isConstruct : POp → Bool
  | POp.construct => true
  | POp.removeOp _ => false

/-- Embedding of the loop in `removePlayer` (api.js lines 58-63):
`for (let i = instances.length; i--;)` scans indices from the last down;
on a `uniqueId` match it splices that one entry out and breaks. The fuel
argument is the value of `i` about to be post-decremented and tested. -/
def removeLoop (l : List Nat) (uid : Nat) : Nat → List Nat
  | 0 => l
  | i + 1 =>
    if l[i]? = some uid then l.take i ++ l.drop (i + 1) else removeLoop l uid i

/-- `removePlayer(api)` on the registry viewed as its list of `uniqueId`s. -/
def removePlayerList (l : List Nat) (uid : Nat) : List Nat :=
  removeLoop l uid l.length

/-- Process state: the `instancesCreated` counter (api.js line 16), the
registry of live `uniqueId`s (`api/players`), and a log of every
`uniqueId` handed out, in construction order. -/
structure ProcState where
  instancesCreated : Nat
  instances : List Nat
  assigned : List Nat
deriving DecidableEq, Repr

/-- One process step. `construct` embeds `const uniqueId = instancesCreated++`
of the constructor (api.js line 77) plus the registry append. The append
itself is not in the shown source — modelled from the spec:
"register(handle) appends to the process-wide sequence". `removeOp` embeds
`Api#remove`'s call to `removePlayer(this)` (api.js lines 196-198, 57-64);
`remove()` never touches the counter. -/
def pstep (s : ProcState) : POp → ProcState
  | POp.construct =>
    { instancesCreated := s.instancesCreated + 1,
      instances := s.instances ++ [s.instancesCreated],
      assigned := s.assigned ++ [s.instancesCreated] }
  | POp.removeOp uid =>
    { s with instances := removePlayerList s.instances uid }

/-- The process at page load: no handle constructed yet. -/
def initProc : ProcState :=
  { instancesCreated := 0, instances := [], assigned := [] }

/-- Run a sequence of process operations from page load. -/
def runProc (ops : List POp) : ProcState :=
  List.foldl pstep initProc ops

lemma foldl_pstep_assigned (ops : List POp) : ∀ s : ProcState,
    (List.foldl pstep s ops).assigned
      = s.assigned ++ List.range' s.instancesCreated (ops.countP isConstruct) := by
  induction ops with
  | nil =>
    intro s
    simp
  | cons op rest ih =>
    intro s
    cases op with
    | construct =>
      rw [List.foldl_cons, ih]
      simp [pstep, List.countP_cons, isConstruct, List.range'_succ]
    | removeOp uid =>
      rw [List.foldl_cons, ih]
      simp [pstep, List.countP_cons, isConstruct]

lemma foldl_pstep_counter (ops : List POp) : ∀ s : ProcState,
    (List.foldl pstep s ops).instancesCreated
      = s.instancesCreated + ops.countP isConstruct := by
  induction ops with
  | nil =>
    intro s
    simp
  | cons op rest ih =>
    intro s
    cases op with
    | construct =>
      rw [List.foldl_cons, ih]
      simp [pstep, List.countP_cons, isConstruct]
      omega
    | removeOp uid =>
      rw [List.foldl_cons, ih]
      simp [pstep, List.countP_cons, isConstruct]

/-- C6: across any sequence of process operations with N constructions, the
`uniqueId` values assigned are exactly 0..N-1 in construction order —
unique, strictly increasing, and never reused (removal never decrements the
counter, so the log stays duplicate-free whatever `remove()` calls are
interleaved). -/
theorem C6_uniqueId_monotone (ops : List POp) :
    (runProc ops).assigned = List.range (ops.countP isConstruct)
    ∧ List.Pairwise (fun a b => a < b) (runProc ops).assigned
    ∧ (runProc ops).assigned.Nodup
    ∧ (runProc ops).instancesCreated = ops.countP isConstruct := by
  have h1 : (runProc ops).assigned = List.range (ops.countP isConstruct) := by
    rw [runProc, foldl_pstep_assigned]
    simp [initProc, List.range_eq_range']
  refine ⟨h1, ?_, ?_, ?_⟩
  · rw [h1]
    exact List.pairwise_lt_range _
  · rw [h1]
    exact List.nodup_range _
  · rw [runProc, foldl_pstep_counter]
    simp [initProc]

lemma removeLoop_no_match (l : List Nat) (uid : Nat) (i k : Nat)
    (h : ∀ j, j < k → l[i + j]? ≠ some uid) :
    removeLoop l uid (i + k) = removeLoop l uid i := by
  induction k with
  | zero => rfl
  | succ k ih =>
    have hik : l[i + k]? ≠ some uid := h k (Nat.lt_succ_self k)
    have hstep : i + (k + 1) = (i + k) + 1 := rfl
    rw [hstep]
    show (if l[i + k]? = some uid then l.take (i + k) ++ l.drop ((i + k) + 1)
        else removeLoop l uid (i + k)) = removeLoop l uid i
    rw [if_neg hik]
    exact ih (fun j hj => h j (Nat.lt_succ_of_lt hj))

/-- C7: `unregister` scans the registry from the end and removes the first
matching entry only — so the last occurrence of the `uniqueId` goes, earlier
entries survive, an absent `uniqueId` leaves the registry unchanged and
raises no error (the function is total) — and after constructing handles A
(uniqueId 0) and B (uniqueId 1) and calling `A.remove()`, the live registry
is exactly \x5bB\x5d. -/
theorem C7_unregister_from_end (l l₁ l₂ : List Nat) (uid : Nat) :
    (uid ∉ l → removePlayerList l uid = l)
    ∧ (uid ∉ l₂ → removePlayerList (l₁ ++ uid :: l₂) uid = l₁ ++ l₂)
    ∧ (runProc [POp.construct, POp.construct, POp.removeOp 0]).instances = [1] := by
  refine ⟨?_, ?_, by decide⟩
  · intro hmem
    rw [removePlayerList]
    have h := removeLoop_no_match l uid 0 l.length (fun j hj hget => ?_)
    · simpa using h
    · exact hmem (by simpa using List.getElem?_mem hget)
  · intro hmem
    rw [removePlayerList]
    have hlen : (l₁ ++ uid :: l₂).length = (l₁.length + 1) + l₂.length := by
      simp
      omega
    rw [hlen]
    have hskip := removeLoop_no_match (l₁ ++ uid :: l₂) uid (l₁.length + 1) l₂.length
      (fun j hj hget => ?_)
    · rw [hskip]
      have hget : (l₁ ++ uid :: l₂)[l₁.length]? = some uid := by
        rw [List.getElem?_append_right (Nat.le_refl _)]
        simp
      show (if (l₁ ++ uid :: l₂)[l₁.length]? = some uid
          then (l₁ ++ uid :: l₂).take l₁.length ++ (l₁ ++ uid :: l₂).drop (l₁.length + 1)
          else removeLoop (l₁ ++ uid :: l₂) uid l₁.length) = l₁ ++ l₂
      rw [if_pos hget, List.take_left]
      have hsplit : l₁ ++ uid :: l₂ = (l₁ ++ [uid]) ++ l₂ := by simp
      rw [hsplit, List.drop_left' (by simp)]
    · refine hmem ?_
      have : (l₁ ++ uid :: l₂)[(l₁.length + 1) + j]? = l₂[j]? := by
        rw [List.getElem?_append_right (by omega)]
        have : (l₁.length + 1) + j - l₁.length = j + 1 := by omega
        rw [this]
        simp
      rw [this] at hget
      exact List.getElem?_mem hget

/-- C7 witness: removing an absent id leaves the registry alone; removing id
3 from registry 5,3,7 removes the (single, last) occurrence; the concrete
A/B scenario leaves exactly B. -/
theorem C7_unregister_from_end_witness :
    removePlayerList [0, 1] 3 = [0, 1]
    ∧ removePlayerList [5, 3, 7] 3 = [5, 7]
    ∧ (runProc [POp.construct, POp.construct, POp.removeOp 0]).instances = [1] := by
  obtain ⟨h1, h2, h3⟩ := C7_unregister_from_end [0, 1] [5] [7] 3
  exact ⟨h1 (by decide), h2 (by decide), h3⟩

/-! ### Action-trace semantics of `Api#setup` and `Api#remove`
(api.js lines 23-36, 43-50, 168-188, 196-208) -/

/-- The externally observable actions the facade performs, in program
order. Controllers are identified by allocation number. -/
inductive Act where
  | clearReadyTick
  | setupTick
  | apiOff
  | controllerOff (cid : Nat)
  | playerDestroy (cid : Nat)
  | allocController (cid : Nat)
  | wireReady (cid : Nat)
  | wireAll (cid : Nat)
  | invokeHandleMethod (name : String) (arg : JsValue)
  | setOptionId
  | controllerSetup (cid : Nat)
  | unregisterPlayer
  | emitRemove
deriving DecidableEq, Repr

/-- The handle's controller slot: the controller currently referenced by
the privately scoped `_controller`, and the id the next allocation gets. -/
structure ApiState where
  controller : Nat
  nextCid : Nat
deriving DecidableEq, Repr

/-- Embedding of `setupController` (api.js lines 23-36): allocate a new
controller, subscribe to its "ready" event (QoE stamping), subscribe to its
"all" channel (re-emission on the handle). -/
def setupControllerTrace (cid : Nat) : List Act :=
  [Act.allocController cid, Act.wireReady cid, Act.wireAll cid]

/-- Embedding of `resetPlayer` (api.js lines 43-50): `api.off()` detaches
every handle-level listener, `controller.off()` detaches every controller
listener, and `controller.playerDestroy()` runs when the hook is present.
`hasDestroy` gives the truthiness of `controller.playerDestroy` per
controller. -/
def resetPlayerTrace (cid : Nat) (hasDestroy : Nat → Bool) : List Act :=
  [Act.apiOff, Act.controllerOff cid]
    ++ (if hasDestroy cid then [Act.playerDestroy cid] else [])

/-- Embedding of `Api#setup` (api.js lines 168-188): QoE clear+tick, reset
the current controller, allocate and wire the replacement, apply the
declarative `options.events` bindings (invoking each same-named handle
method — `handleMethods` says which keys name functions on the handle — with
the bound value), force `options.id`, delegate to `controller.setup`.
Returns the new controller slot and the action trace. -/
def setupRun (st : ApiState) (hasDestroy : Nat → Bool)
    (evts : List (String × JsValue)) (handleMethods : String → Bool) :
    ApiState × List Act :=
  ({ controller := st.nextCid, nextCid := st.nextCid + 1 },
   [Act.clearReadyTick, Act.setupTick]
     ++ resetPlayerTrace st.controller hasDestroy
     ++ setupControllerTrace st.nextCid
     ++ (evts.filter (fun p => handleMethods p.1)).map
         (fun p => Act.invokeHandleMethod p.1 p.2)
     ++ [Act.setOptionId, Act.controllerSetup st.nextCid])

/-- Embedding of `Api#remove` (api.js lines 196-208): unregister from the
instance registry, fire the "remove" event (before teardown — the quirk the
source's TODO comments on), then `resetPlayer`. -/
def removeRun (st : ApiState) (hasDestroy : Nat → Bool) : List Act :=
  [Act.unregisterPlayer, Act.emitRemove] ++ resetPlayerTrace st.controller hasDestroy

/-- The set of controllers whose events are wired to the handle, as a
trace-fold: `wireAll` wires a controller, `controllerOff` unwires it. -/
def stepWired (s : List Nat) : Act → List Nat
  | Act.wireAll c => s ++ [c]
  | Act.controllerOff c => s.filter (fun x => x != c)
  | _ => s

/-- At every point of the trace, at most one controller is wired. -/
def wiredOKb : List Nat → List Act → Bool
  | s, [] => decide (s.length ≤ 1)
  | s, a :: rest => decide (s.length ≤ 1) && wiredOKb (stepWired s a) rest

lemma binds_neutral (evts : List (String × JsValue)) (hm : String → Bool) :
    ∀ a ∈ (evts.filter (fun p => hm p.1)).map
        (fun p => Act.invokeHandleMethod p.1 p.2),
      ∀ s : List Nat, stepWired s a = s := by
  intro a ha s
  obtain ⟨p, _, rfl⟩ := List.mem_map.mp ha
  rfl

lemma wiredOKb_append_neutral (l : List Act)
    (hneutral : ∀ a ∈ l, ∀ s : List Nat, stepWired s a = s) :
    ∀ (s : List Nat) (rest : List Act), s.length ≤ 1 →
      wiredOKb s (l ++ rest) = wiredOKb s rest := by
  induction l with
  | nil =>
    intro s rest _
    simp
  | cons a l ih =>
    intro s rest hs
    show (decide (s.length ≤ 1) && wiredOKb (stepWired s a) (l ++ rest))
        = wiredOKb s rest
    rw [hneutral a (List.mem_cons_self a l) s,
      ih (fun b hb => hneutral b (List.mem_cons_of_mem a hb)) s rest hs]
    simp [hs]

lemma foldl_stepWired_append_neutral (l : List Act)
    (hneutral : ∀ a ∈ l, ∀ s : List Nat, stepWired s a = s) :
    ∀ (s : List Nat) (rest : List Act),
      List.foldl stepWired s (l ++ rest) = List.foldl stepWired s rest := by
  induction l with
  | nil =>
    intro s rest
    simp
  | cons a l ih =>
    intro s rest
    rw [List.cons_append, List.foldl_cons, hneutral a (List.mem_cons_self a l) s]
    exact ih (fun b hb => hneutral b (List.mem_cons_of_mem a hb)) s rest

lemma count_binds_eq_zero (evts : List (String × JsValue)) (hm : String → Bool)
    (c : Nat) :
    ((evts.filter (fun p => hm p.1)).map
        (fun p => Act.invokeHandleMethod p.1 p.2)).count (Act.playerDestroy c) = 0 := by
  rw [List.count_eq_zero]
  intro hmem
  obtain ⟨p, _, heq⟩ := List.mem_map.mp hmem
  simp at heq

/-- C1: on every `setup(options)` call the old controller's teardown — the
handle-level `off()`, the controller-level `off()`, and the destroy hook
(run exactly once when present, never otherwise) — happens strictly before
the replacement controller is allocated, and no wiring action at all
precedes the teardown; at every point of the trace at most one controller
is wired, afterwards exactly the replacement is wired and referenced, and
the replacement is a genuinely different controller. -/
theorem C1_setup_teardown_before_replacement (st : ApiState) (hasDestroy : Nat → Bool)
    (evts : List (String × JsValue)) (handleMethods : String → Bool)
    (hwf : st.controller < st.nextCid) :
    ∃ pre post,
      (setupRun st hasDestroy evts handleMethods).2
          = pre ++ Act.allocController st.nextCid :: post
      ∧ Act.apiOff ∈ pre
      ∧ Act.controllerOff st.controller ∈ pre
      ∧ (hasDestroy st.controller = true → Act.playerDestroy st.controller ∈ pre)
      ∧ (setupRun st hasDestroy evts handleMethods).2.count
            (Act.playerDestroy st.controller)
          = (if hasDestroy st.controller then 1 else 0)
      ∧ (∀ a ∈ pre, ∀ c, a ≠ Act.allocController c ∧ a ≠ Act.wireReady c
          ∧ a ≠ Act.wireAll c)
      ∧ (∀ a ∈ post, a ≠ Act.apiOff ∧ a ≠ Act.controllerOff st.controller
          ∧ a ≠ Act.playerDestroy st.controller)
      ∧ (setupRun st hasDestroy evts handleMethods).1.controller = st.nextCid
      ∧ st.controller ≠ st.nextCid
      ∧ wiredOKb [st.controller] (setupRun st hasDestroy evts handleMethods).2 = true
      ∧ List.foldl stepWired [st.controller]
            (setupRun st hasDestroy evts handleMethods).2
          = [st.nextCid] := by
  refine ⟨[Act.clearReadyTick, Act.setupTick] ++ resetPlayerTrace st.controller hasDestroy,
    [Act.wireReady st.nextCid, Act.wireAll st.nextCid]
      ++ (evts.filter (fun p => handleMethods p.1)).map
          (fun p => Act.invokeHandleMethod p.1 p.2)
      ++ [Act.setOptionId, Act.controllerSetup st.nextCid],
    ?_, ?_, ?_, ?_, ?_, ?_, ?_, rfl, Nat.ne_of_lt hwf, ?_, ?_⟩
  · simp [setupRun, setupControllerTrace]
  · by_cases hd : hasDestroy st.controller <;> simp [resetPlayerTrace, hd]
  · by_cases hd : hasDestroy st.controller <;> simp [resetPlayerTrace, hd]
  · intro hd
    simp [resetPlayerTrace, hd]
  · by_cases hd : hasDestroy st.controller <;>
      simp [setupRun, resetPlayerTrace, setupControllerTrace, hd,
        List.count_append, List.count_cons, count_binds_eq_zero]
  · intro a ha c
    cases hd : hasDestroy st.controller
    · simp [resetPlayerTrace, hd] at ha
      rcases ha with h | h | h | h <;> simp [h]
    · simp [resetPlayerTrace, hd] at ha
      rcases ha with h | h | h | h | h <;> simp [h]
  · intro a ha
    simp only [List.append_assoc, List.mem_append, List.mem_cons,
      List.mem_singleton, List.not_mem_nil] at ha
    rcases ha with h | h | h
    · rcases h with h | h
      · simp [h]
      · simp at h
        simp [h]
    · obtain ⟨p, _, rfl⟩ := List.mem_map.mp h
      simp
    · rcases h with h | h
      · simp [h]
      · simp at h
        simp [h]
  · cases hd : hasDestroy st.controller <;>
      simp only [setupRun, resetPlayerTrace, setupControllerTrace, hd, Bool.false_eq_true,
        if_true, if_false, List.cons_append, List.nil_append, List.append_assoc] <;>
      simp only [wiredOKb, stepWired] <;>
      rw [wiredOKb_append_neutral _ (binds_neutral evts handleMethods) _ _ (by simp)] <;>
      simp [wiredOKb, stepWired]
  · cases hd : hasDestroy st.controller <;>
      simp only [setupRun, resetPlayerTrace, setupControllerTrace, hd, Bool.false_eq_true,
        if_true, if_false, List.cons_append, List.nil_append, List.append_assoc,
        List.foldl_cons] <;>
      simp only [stepWired] <;>
      rw [foldl_stepWired_append_neutral _ (binds_neutral evts handleMethods)] <;>
      simp [stepWired]

/-- C1 witness: a concrete double-setup step, with a destroy hook present. -/
theorem C1_setup_teardown_before_replacement_witness :
    ∃ pre post,
      (setupRun { controller := 0, nextCid := 1 } (fun _ => true) [] (fun _ => false)).2
          = pre ++ Act.allocController 1 :: post
      ∧ Act.apiOff ∈ pre
      ∧ Act.controllerOff 0 ∈ pre
      ∧ (true = true → Act.playerDestroy 0 ∈ pre) := by
  obtain ⟨pre, post, h1, h2, h3, h4, _⟩ :=
    C1_setup_teardown_before_replacement { controller := 0, nextCid := 1 }
      (fun _ => true) [] (fun _ => false) (by decide)
  exact ⟨pre, post, h1, h2, h3, fun _ => h4 rfl⟩

/-- C2: `remove()` delivers the "remove" event while every listener
registered at that moment is still attached — strictly before the
handle-level `off()`, the controller-level `off()`, and the destroy hook —
and delivers it exactly once. -/
theorem C2_remove_event_before_teardown (st : ApiState) (hasDestroy : Nat → Bool) :
    ∃ post,
      removeRun st hasDestroy = [Act.unregisterPlayer, Act.emitRemove] ++ post
      ∧ Act.apiOff ∈ post
      ∧ Act.controllerOff st.controller ∈ post
      ∧ (hasDestroy st.controller = true → Act.playerDestroy st.controller ∈ post)
      ∧ (∀ a ∈ post, a ≠ Act.emitRemove)
      ∧ (removeRun st hasDestroy).count Act.emitRemove = 1 := by
  refine ⟨resetPlayerTrace st.controller hasDestroy, rfl, ?_, ?_, ?_, ?_, ?_⟩
  · by_cases hd : hasDestroy st.controller <;> simp [resetPlayerTrace, hd]
  · by_cases hd : hasDestroy st.controller <;> simp [resetPlayerTrace, hd]
  · intro hd
    simp [resetPlayerTrace, hd]
  · intro a ha
    cases hd : hasDestroy st.controller
    · simp [resetPlayerTrace, hd] at ha
      rcases ha with h | h <;> simp [h]
    · simp [resetPlayerTrace, hd] at ha
      rcases ha with h | h | h <;> simp [h]
  · cases hd : hasDestroy st.controller <;>
      simp [removeRun, resetPlayerTrace, hd, List.count_append, List.count_cons]

/-- C2 witness: the concrete remove trace with a destroy hook present. -/
theorem C2_remove_event_before_teardown_witness :
    ∃ post,
      removeRun { controller := 0, nextCid := 1 } (fun _ => true)
          = [Act.unregisterPlayer, Act.emitRemove] ++ post
      ∧ Act.apiOff ∈ post
      ∧ Act.controllerOff 0 ∈ post
      ∧ Act.playerDestroy 0 ∈ post := by
  obtain ⟨post, h1, h2, h3, h4, _⟩ :=
    C2_remove_event_before_teardown { controller := 0, nextCid := 1 } (fun _ => true)
  exact ⟨post, h1, h2, h3, h4 rfl⟩

/-- C8: during `setup(options)`, every key of `options.events` naming a
handle method gets that method invoked with the bound value — after the
replacement controller is wired and before `options.id` is forced and final
setup is delegated to the controller (hence before `setup` returns) — and
nothing else runs in that binding phase. -/
theorem C8_setup_declarative_bindings (st : ApiState) (hasDestroy : Nat → Bool)
    (evts : List (String × JsValue)) (handleMethods : String → Bool) :
    ∃ pre mid,
      (setupRun st hasDestroy evts handleMethods).2
          = pre ++ mid ++ [Act.setOptionId, Act.controllerSetup st.nextCid]
      ∧ Act.wireAll st.nextCid ∈ pre
      ∧ (∀ k v, (k, v) ∈ evts → handleMethods k = true →
          Act.invokeHandleMethod k v ∈ mid)
      ∧ (∀ a ∈ mid, ∃ k v, a = Act.invokeHandleMethod k v
          ∧ (k, v) ∈ evts ∧ handleMethods k = true) := by
  refine ⟨[Act.clearReadyTick, Act.setupTick]
      ++ resetPlayerTrace st.controller hasDestroy
      ++ setupControllerTrace st.nextCid,
    (evts.filter (fun p => handleMethods p.1)).map
      (fun p => Act.invokeHandleMethod p.1 p.2),
    ?_, ?_, ?_, ?_⟩
  · simp [setupRun]
  · simp [setupControllerTrace]
  · intro k v hk hmk
    exact List.mem_map.mpr ⟨(k, v), List.mem_filter.mpr ⟨hk, hmk⟩, rfl⟩
  · intro a ha
    obtain ⟨p, hp, rfl⟩ := List.mem_map.mp ha
    obtain ⟨hin, hmk⟩ := List.mem_filter.mp hp
    exact ⟨p.1, p.2, rfl, by simpa using hin, hmk⟩

/-- C8 witness: the `setup(\x7bevents: \x7bsetVolume: 50\x7d\x7d)` scenario — the
handle's `setVolume` method is invoked with 50 during setup, before
delegation to the controller. -/
theorem C8_setup_declarative_bindings_witness :
    ∃ pre mid,
      (setupRun { controller := 0, nextCid := 1 } (fun _ => false)
          [("setVolume", JsValue.num 50)] (fun k => k == "setVolume")).2
        = pre ++ mid ++ [Act.setOptionId, Act.controllerSetup 1]
      ∧ Act.invokeHandleMethod "setVolume" (JsValue.num 50) ∈ mid := by
  obtain ⟨pre, mid, h1, _, h3, _⟩ :=
    C8_setup_declarative_bindings { controller := 0, nextCid := 1 } (fun _ => false)
      [("setVolume", JsValue.num 50)] (fun k => k == "setVolume")
  exact ⟨pre, mid, h1, h3 "setVolume" (JsValue.num 50) (by simp) (by decide)⟩

/-! ### Event bus subscriptions and plugins (api.js lines 254-268, 980-998) -/

/-- Whether a subscription auto-unsubscribes after its first delivery
(`once`) or persists (`on`). -/
inductive SubKind where
  | persistent
  | oneShot
deriving DecidableEq, Repr

/-- One event subscription: event name, kind, and an id standing for the
callback. -/
structure BusSub where
  evName : String
  kind : SubKind
  hookId : Nat
deriving DecidableEq, Repr

/-- Modelled from the spec: the Event Bus `on` operation that `Api#on`
(api.js lines 254-256) delegates to — `utils/backbone.events` is not under
src/. "on(name, callback, context?)" appends a persistent subscription;
subscriptions fire in registration order. -/
def busOn (name : String) (hookId : Nat) (subs : List BusSub) : List BusSub :=
  subs ++ [{ evName := name, kind := SubKind.persistent, hookId := hookId }]

/-- Modelled from the spec: trigger dispatch — subscriptions for the
literal event name fire in registration order, followed by wildcard "all"
subscriptions; a fired one-shot subscription is removed, a persistent one
stays. Returns the fired hooks in order and the surviving subscriptions. -/
def busTrigger (name : String) (subs : List BusSub) : List Nat × List BusSub :=
  ((subs.filter (fun s => s.evName == name)).map BusSub.hookId
      ++ (subs.filter (fun s => s.evName == "all")).map BusSub.hookId,
   subs.filter
     (fun s => !((s.evName == name || s.evName == "all")
        && s.kind == SubKind.oneShot)))

/-- A plugin instance as `addPlugin` consumes it: its `addToPlayer` hook,
the truthiness of its `resize` property, and its `resizeHandler` hook. -/
structure PluginInstance where
  addToPlayerHook : Nat
  hasResize : Bool
  resizeHandlerHook : Nat
deriving DecidableEq, Repr

/-- The per-handle state `addPlugin`/`getPlugin` touch: the `plugins`
mapping and the handle's event subscriptions. -/
structure PlayerHandle where
  plugins : List (String × PluginInstance)
  subs : List BusSub
deriving DecidableEq, Repr

/-- Embedding of `Api#getPlugin` (api.js lines 980-982):
`return this.plugins[name]`. -/
def getPlugin (h : PlayerHandle) (name : String) : Option PluginInstance :=
  lookupProp h.plugins name

/-- Embedding of `Api#addPlugin` (api.js lines 989-998):
`this.plugins[name] = pluginInstance; this.on('ready',
pluginInstance.addToPlayer); if (pluginInstance.resize) this.on('resize',
pluginInstance.resizeHandler);`. -/
def addPlugin (h : PlayerHandle) (name : String) (inst : PluginInstance) :
    PlayerHandle :=
  { plugins := setProp h.plugins name inst,
    subs :=
      let s1 := busOn "ready" inst.addToPlayerHook h.subs
      if inst.hasResize then busOn "resize" inst.resizeHandlerHook s1 else s1 }

lemma lookupProp_setProp {α : Type} (l : List (String × α)) (k : String) (v : α) :
    lookupProp (setProp l k v) k = some v := by
  induction l with
  | nil => simp [setProp, lookupProp]
  | cons p rest ih =>
    obtain ⟨k₁, v₁⟩ := p
    by_cases hp : k₁ = k
    · simp [setProp, hp, lookupProp]
    · simp only [setProp, if_neg hp]
      simp only [lookupProp] at ih ⊢
      rw [List.find?_cons_of_neg _ (by simp [hp])]
      exact ih

/-- C9: `addPlugin(name, instance)` stores the instance in the handle's
`plugins` mapping (retrievable via `getPlugin`), subscribes its
`addToPlayer` hook to "ready" persistently — a "ready" trigger fires it
exactly once more than before, and so does a second "ready" trigger after
the first (not a one-shot subscription) — and subscribes its
`resizeHandler` hook to "resize" exactly when the instance has a truthy
`resize` property. -/
theorem C9_addPlugin_wiring (h : PlayerHandle) (name : String) (inst : PluginInstance) :
    getPlugin (addPlugin h name inst) name = some inst
    ∧ (busTrigger "ready" (addPlugin h name inst).subs).1.count inst.addToPlayerHook
        = (busTrigger "ready" h.subs).1.count inst.addToPlayerHook + 1
    ∧ (busTrigger "ready" (busTrigger "ready" (addPlugin h name inst).subs).2).1.count
          inst.addToPlayerHook
        = (busTrigger "ready" (busTrigger "ready" h.subs).2).1.count
            inst.addToPlayerHook + 1
    ∧ (busTrigger "resize" (addPlugin h name inst).subs).1.count inst.resizeHandlerHook
        = (busTrigger "resize" h.subs).1.count inst.resizeHandlerHook
            + (if inst.hasResize then 1 else 0) := by
  refine ⟨by simp [getPlugin, addPlugin, lookupProp_setProp], ?_, ?_, ?_⟩
  · cases hr : inst.hasResize <;>
      simp [addPlugin, busOn, busTrigger, hr, List.filter_append, List.map_append,
        List.count_append] <;>
      omega
  · cases hr : inst.hasResize <;>
      simp [addPlugin, busOn, busTrigger, hr, List.filter_append, List.map_append,
        List.count_append] <;>
      omega
  · cases hr : inst.hasResize <;>
      simp [addPlugin, busOn, busTrigger, hr, List.filter_append, List.map_append,
        List.count_append] <;>
      omega

/-- C9 witness: on a fresh handle, adding plugin "foo" makes it retrievable,
a "ready" trigger fires its `addToPlayer` hook once, a second "ready"
trigger fires it again, and its `resizeHandler` hook is wired to "resize". -/
theorem C9_addPlugin_wiring_witness :
    getPlugin (addPlugin { plugins := [], subs := [] } "foo"
        { addToPlayerHook := 10, hasResize := true, resizeHandlerHook := 20 }) "foo"
      = some { addToPlayerHook := 10, hasResize := true, resizeHandlerHook := 20 }
    ∧ (busTrigger "ready" (addPlugin { plugins := [], subs := [] } "foo"
        { addToPlayerHook := 10, hasResize := true, resizeHandlerHook := 20 }).subs).1.count 10
      = 1
    ∧ (busTrigger "resize" (addPlugin { plugins := [], subs := [] } "foo"
        { addToPlayerHook := 10, hasResize := true, resizeHandlerHook := 20 }).subs).1.count 20
      = 1 := by
  obtain ⟨h1, h2, _, h4⟩ := C9_addPlugin_wiring { plugins := [], subs := [] } "foo"
    { addToPlayerHook := 10, hasResize := true, resizeHandlerHook := 20 }
  refine ⟨h1, ?_, ?_⟩
  · rw [h2]
    rfl
  · rw [h4]
    rfl

end JW
